import Mathlib

/-!
Verification of the d3blocks Violin block (`d3blocks/violin/Violin.py`).

The Python module is shallowly embedded: pandas DataFrames become lists of
`Row` records, the mutable configuration dict becomes an association list
threaded explicitly through the functions (so an in-place update of the
caller's dict is modelled by returning the updated mapping as the caller's
state after the call), numbers become `ℚ`, and code that raises becomes
`Except ViolinError`.  External collaborators that live outside the violin
source file (`set_path`, `pre_processing`, `convert_dataframe_dict`,
`colourmap.fromlist`) are modelled from the specification and are marked as
such in their doc comments.
-/

/-- A cell of a pandas column: either missing (None/NaN), a numeric value, or
a string.  `null` plays the role of both Python `None` and float NaN as far
as `isna` is concerned. -/
inductive CellVal where
  | null
  | num (q : ℚ)
  | str (s : String)
deriving DecidableEq, Repr

/-- String rendering used for `astype(str)`; the exact text of the rendering
is not load-bearing for any claim, only that it is a deterministic string. -/
def ratStr (q : ℚ) : String :=
  if q.den = 1 then toString q.num else toString q.num ++ "/" ++ toString q.den

/-- Deterministic string form of a cell (models `astype(str)`). -/
def cellToStr : CellVal → String
  | .null => "nan"
  | .num q => ratStr q
  | .str s => s

/-- One row of the edge-properties DataFrame built by `set_edge_properties`:
columns `x, y, color, size, stroke, opacity, tooltip` (in source order). -/
structure Row where
  x : String
  y : CellVal
  color : CellVal
  size : CellVal
  stroke : CellVal
  opacity : CellVal
  tooltip : CellVal
deriving DecidableEq, Repr

/-- The error taxonomy of the spec: `ValidationError` for the explicit input
checks of `set_edge_properties`, `DataError` for label extraction failure.
In the source both are `raise Exception(...)`; the spec names them. -/
inductive ViolinError where
  | validationError (msg : String)
  | dataError (msg : String)
deriving DecidableEq, Repr

/-- A value stored in the configuration dict.  `vNone` is Python `None`,
`vRatPair` holds the `figsize`/`ylim` lists of nullable numbers, `vStrList`
a user-supplied `x_order` list, and `vStr` also covers the string that
`show` writes into `x_order` via `str([...])`. -/
inductive CfgVal where
  | vStr (s : String)
  | vBool (b : Bool)
  | vNat (n : Nat)
  | vRatPair (l : List (Option ℚ))
  | vStrList (l : List String)
  | vNone
deriving DecidableEq, Repr

/-- The configuration dict: an insertion-ordered mapping from option names to
values, as a Python dict restricted to the keys this module touches. -/
abbrev Dict := List (String × CfgVal)

/-- Lookup of a key in the configuration dict. -/
def Dict.get? : Dict → String → Option CfgVal
  | [], _ => none
  | (a, b) :: rest, k => if a = k then some b else Dict.get? rest k

/-- In-place update `d[k] = v` of a Python dict: overwrite the existing entry
for `k`, or append a new entry at the end (insertion order). -/
def Dict.set : Dict → String → CfgVal → Dict
  | [], k, v => [(k, v)]
  | (a, b) :: rest, k, v =>
      if a = k then (k, v) :: rest else (a, b) :: Dict.set rest k v

@[simp] theorem Dict.get?_set (d : Dict) (k k' : String) (v : CfgVal) :
    Dict.get? (Dict.set d k v) k' = if k = k' then some v else Dict.get? d k' := by
  induction d with
  | nil =>
      by_cases h : k = k' <;> simp [Dict.set, Dict.get?, h]
  | cons hd tl ih =>
      obtain ⟨a, b⟩ := hd
      by_cases h1 : a = k
      · subst h1
        by_cases h2 : a = k' <;> simp [Dict.set, Dict.get?, h2]
      · by_cases h2 : a = k'
        · subst h2
          have : ¬ k = a := fun h => h1 h.symm
          simp [Dict.set, Dict.get?, h1, this]
        · simp [Dict.set, Dict.get?, h1, h2, ih]

/-- `kwargs.get(k, default)`. -/
def kwGet (kw : Dict) (k : String) (dflt : CfgVal) : CfgVal :=
  (Dict.get? kw k).getD dflt

/-- Modelled from the spec: the path-normalization collaborator `set_path`
(in `d3blocks/utils.py`, not part of the provided source).  The spec says it
returns a normalized filesystem path, defaulting the filename if absent; it
is modelled as the identity on the supplied path string. -/
def set_path (p : String) : String := p

/-- Apply `set_path` to a configuration value if it is a string (the shape
`set_config` feeds it); other values pass through. -/
def applySetPath : CfgVal → CfgVal
  | .vStr s => .vStr (set_path s)
  | v => v

/-- The eleven option names `set_config` writes. -/
def recognizedConfigKeys : List String :=
  ["chart", "title", "filepath", "figsize", "showfig", "overwrite", "bins",
   "cmap", "ylim", "x_order", "reset_properties"]

/-- Embedding of `set_config`.  The Python function mutates the passed-in
`config` dict (`config['chart'] = ...` and so on) and returns it; here the
caller's dict is passed explicitly and the returned dict is the caller's
mapping after the call.  Each recognized key is set to the `kwargs` override
or the stated default, in source order. -/
def set_config (config : Dict) (kwargs : Dict) : Dict :=
  let c := Dict.set config "chart" (.vStr "violin")
  let c := Dict.set c "title" (kwGet kwargs "title" (.vStr "Violin - D3blocks"))
  let c := Dict.set c "filepath" (applySetPath (kwGet kwargs "filepath" (.vStr "violin.html")))
  let c := Dict.set c "figsize" (kwGet kwargs "figsize" (.vRatPair [none, none]))
  let c := Dict.set c "showfig" (kwGet kwargs "showfig" (.vBool true))
  let c := Dict.set c "overwrite" (kwGet kwargs "overwrite" (.vBool true))
  let c := Dict.set c "bins" (kwGet kwargs "bins" (.vNat 20))
  let c := Dict.set c "cmap" (kwGet kwargs "cmap" (.vStr "inferno"))
  let c := Dict.set c "ylim" (kwGet kwargs "ylim" (.vRatPair [none, none]))
  let c := Dict.set c "x_order" (kwGet kwargs "x_order" CfgVal.vNone)
  Dict.set c "reset_properties" (kwGet kwargs "reset_properties" (.vBool true))

/-- Modelled from the spec: the preprocessing collaborator `pre_processing`
(in `d3blocks/utils.py`, not part of the provided source).  Per §6 of the
spec it returns a cleaned sequence — dropping null/invalid entries — or the
original sequence when no cleaning is needed; it is modelled as dropping the
null entries of a sequence of nullable labels. -/
def pre_processing (labels : List (Option String)) : List String :=
  labels.filterMap id

/-- First-occurrence deduplication, the embedding of
`np.unique(labels, return_index=True)[1]` followed by sorting the first
indices and selecting: emit each distinct value at its first occurrence,
keeping that order.  `seen` holds the values already emitted. -/
def uniqueFirstOccAux (seen : List String) : List String → List String
  | [] => []
  | a :: rest =>
      if a ∈ seen then uniqueFirstOccAux seen rest
      else a :: uniqueFirstOccAux (a :: seen) rest

/-- Unique labels in first-occurrence order (lines 56-57 of the source). -/
def uniqueFirstOcc (l : List String) : List String :=
  uniqueFirstOccAux [] l

/-- Embedding of `set_labels` on a raw label sequence.  The source's branch
for a DataFrame argument (which extracts its `x` column) is outside this
embedding: the label sequence is given directly.  After preprocessing, an
empty result raises (the spec's `DataError`); otherwise the unique labels in
first-occurrence order are returned. -/
def set_labels (labels : List (Option String)) : Except ViolinError (List String) :=
  let ls := pre_processing labels
  if ls.length < 1 then .error (.dataError "Could not extract the labels!")
  else .ok (uniqueFirstOcc ls)

/-- The per-label record `{id, label}` emitted by `set_node_properties`. -/
structure NodeProp where
  id : Nat
  label : String
deriving DecidableEq, Repr

/-- Embedding of `set_node_properties`: the unique labels in order, each
mapped to `{id := its position, label := itself}`, keyed by label (a Python
dict in insertion order = an association list). -/
def set_node_properties (labels : List (Option String)) :
    Except ViolinError (List (String × NodeProp)) :=
  match set_labels labels with
  | .error e => .error e
  | .ok uilabel => .ok (uilabel.enum.map (fun p => (p.2, ⟨p.1, p.2⟩)))

theorem mem_uniqueFirstOccAux (l : List String) :
    ∀ (seen : List String) (a : String),
      a ∈ uniqueFirstOccAux seen l ↔ a ∈ l ∧ a ∉ seen := by
  induction l with
  | nil => intro seen a; simp [uniqueFirstOccAux]
  | cons b rest ih =>
      intro seen a
      by_cases hb : b ∈ seen
      · rw [uniqueFirstOccAux, if_pos hb, ih]
        simp only [List.mem_cons]
        constructor
        · exact fun h => ⟨Or.inr h.1, h.2⟩
        · rintro ⟨hab | har, hns⟩
          · exact absurd (hab ▸ hb) hns
          · exact ⟨har, hns⟩
      · rw [uniqueFirstOccAux, if_neg hb]
        simp only [List.mem_cons, ih]
        constructor
        · rintro (rfl | ⟨har, hns⟩)
          · exact ⟨Or.inl rfl, hb⟩
          · exact ⟨Or.inr har, fun hs => hns (Or.inr hs)⟩
        · rintro ⟨rfl | har, hns⟩
          · exact Or.inl rfl
          · by_cases hab : a = b
            · exact Or.inl hab
            · exact Or.inr ⟨har, by simp [hab, hns]⟩

theorem uniqueFirstOccAux_nodup (l : List String) :
    ∀ seen, (uniqueFirstOccAux seen l).Nodup := by
  induction l with
  | nil => intro seen; simp [uniqueFirstOccAux]
  | cons b rest ih =>
      intro seen
      by_cases hb : b ∈ seen
      · rw [uniqueFirstOccAux, if_pos hb]; exact ih seen
      · rw [uniqueFirstOccAux, if_neg hb]
        refine List.nodup_cons.mpr ⟨fun hmem => ?_, ih _⟩
        exact ((mem_uniqueFirstOccAux rest _ b).mp hmem).2 (List.mem_cons_self b seen)

/-- The spec's wording of first-occurrence deduplication, as a left fold that
appends each value the first time it is met.  Used only to compare with the
definition taken from the source. -/
def firstOccurrenceOrderSpec (l : List String) : List String :=
  l.foldl (fun acc a => if a ∈ acc then acc else acc ++ [a]) []

theorem foldl_firstOcc_eq (l : List String) :
    ∀ (acc seen : List String), (∀ a, a ∈ seen ↔ a ∈ acc) →
      l.foldl (fun acc a => if a ∈ acc then acc else acc ++ [a]) acc =
        acc ++ uniqueFirstOccAux seen l := by
  induction l with
  | nil => intro acc seen _; simp [uniqueFirstOccAux]
  | cons b rest ih =>
      intro acc seen h
      by_cases hb : b ∈ acc
      · have hb' : b ∈ seen := (h b).mpr hb
        rw [List.foldl_cons, if_pos hb, uniqueFirstOccAux, if_pos hb']
        exact ih acc seen h
      · have hb' : b ∉ seen := fun hx => hb ((h b).mp hx)
        rw [List.foldl_cons, if_neg hb, uniqueFirstOccAux, if_neg hb']
        rw [ih (acc ++ [b]) (b :: seen) (fun a => by
          simp only [List.mem_cons, List.mem_append, List.mem_singleton, h a]
          tauto)]
        simp

theorem uniqueFirstOcc_eq_spec (l : List String) :
    uniqueFirstOcc l = firstOccurrenceOrderSpec l := by
  have := foldl_firstOcc_eq l [] [] (by simp)
  simpa [firstOccurrenceOrderSpec, uniqueFirstOcc] using this.symm

/-- A keyword argument of `set_edge_properties` that may be Python `None`, a
scalar (broadcast over all rows by the DataFrame constructor), or a per-row
array. -/
inductive Param (α : Type) where
  | null
  | scalar (a : α)
  | arr (l : List α)
deriving DecidableEq, Repr

/-- `param is None`. -/
def Param.isNull {α : Type} : Param α → Bool
  | .null => true
  | _ => false

/-- `isinstance(param, (list, np.ndarray)) and len(param) != n`. -/
def Param.isArrMismatch {α : Type} : Param α → Nat → Bool
  | .arr l, n => l.length != n
  | _, _ => false

/-- The column a parameter contributes to the DataFrame: `None` becomes a
column of nulls, a scalar is broadcast, an array is used element-wise. -/
def Param.toCol {α : Type} (p : Param α) (f : α → CellVal) (n : Nat) : List CellVal :=
  match p with
  | .null => List.replicate n CellVal.null
  | .scalar a => List.replicate n (f a)
  | .arr l => l.map f

/-- Zip the seven columns into rows, the embedding of
`pd.DataFrame({'x': x, 'y': y, 'color': color, 'size': size, 'stroke':
stroke, 'opacity': opacity, 'tooltip': tooltip})`.  All columns fed to it
have length `len(x)` (validated or broadcast); mismatched `color`/`tooltip`
arrays, which pandas itself would reject at construction, are outside the
modelled domain. -/
def assembleRows : List String → List CellVal → List CellVal → List CellVal →
    List CellVal → List CellVal → List CellVal → List Row
  | a :: xs, b :: ys, c :: cs, d :: ds, e :: es, f :: fs, g :: gs =>
      ⟨a, b, c, d, e, f, g⟩ :: assembleRows xs ys cs ds es fs gs
  | _, _, _, _, _, _, _ => []

/-- The assembled DataFrame of `set_edge_properties` (line 101). -/
def makeRows (x : List String) (y : List CellVal) (color : Param String)
    (size : Param ℚ) (stroke : Param String) (opacity : Param ℚ)
    (tooltip : Param String) : List Row :=
  assembleRows x y
    (color.toCol CellVal.str x.length)
    (size.toCol CellVal.num x.length)
    (stroke.toCol CellVal.str x.length)
    (opacity.toCol CellVal.num x.length)
    (tooltip.toCol CellVal.str x.length)

/-- Drop the rows whose `y` is missing (`df.loc[~df['y'].isna(), :]`). -/
def dropNa (rows : List Row) : List Row :=
  rows.filter (fun r => r.y ≠ CellVal.null)

/-- Does `p` occur as a contiguous substring of `s` (as character lists)? -/
def hasSubList (p : List Char) : List Char → Bool
  | [] => p.isEmpty
  | c :: rest => p.isPrefixOf (c :: rest) || hasSubList p rest

/-- Substring occurrence on strings. -/
def strContainsSub (p s : String) : Bool :=
  hasSubList p.data s.data

/-- The embedding of `df['x'].str.contains("|".join(classes))` for literal
class names: the joined pattern is a regex alternation, which matches `s`
exactly when the class list is empty (the empty pattern matches everything)
or some class occurs as a substring of `s`. -/
def containsJoined (classes : List String) (s : String) : Bool :=
  classes.isEmpty || classes.any (fun c => strContainsSub c s)

/-- The `x_order` filter (lines 110-113): with a non-null `x_order`, keep the
rows whose `x` matches the joined pattern. -/
def filterXOrder (xo : Option (List String)) (rows : List Row) : List Row :=
  match xo with
  | none => rows
  | some classes => rows.filter (fun r => containsJoined classes r.x)

/-- Modelled from the spec: the single hex color the color-mapping
collaborator (`colourmap.fromlist`, external to the source) assigns to a
value — deterministic in the value and the scheme name, equal values getting
equal colors. -/
def cellColor (cmap : String) (y : CellVal) : String :=
  cmap ++ ":" ++ cellToStr y

/-- Modelled from the spec: `colourmap.fromlist(values, scheme='hex',
cmap=cmap)[0]` — one deterministic hex color per value. -/
def colourmap_fromlist (ys : List CellVal) (cmap : String) : List String :=
  ys.map (cellColor cmap)

/-- The color step (lines 116-117): only when the `color` argument was
`None`, overwrite the color column with the colors computed from the
(cleaned and filtered) `y` column. -/
def applyColorStage (color : Param String) (cmap : String) (rows : List Row) : List Row :=
  if color.isNull then
    (rows.zip (colourmap_fromlist (rows.map (fun r => r.y)) cmap)).map
      (fun p => { p.1 with color := CellVal.str p.2 })
  else rows

/-- Read `config['x_order']` as the optional class list used by the filter.
`set_config` stores either `None` or the caller's list there; only those two
shapes are modelled. -/
def cfgXOrder (config : Dict) : Option (List String) :=
  match Dict.get? config "x_order" with
  | some (.vStrList l) => some l
  | _ => none

/-- Read `config['cmap']`, defaulting to the `set_config` default. -/
def cfgCmap (config : Dict) : String :=
  match Dict.get? config "cmap" with
  | some (.vStr s) => s
  | _ => "inferno"

/-- The validation block of `set_edge_properties` (lines 92-98), in source
order; each failed check raises (the spec's `ValidationError`). -/
def edgeValidate (x : List String) (y : List CellVal) (size : Param ℚ)
    (stroke : Param String) (opacity : Param ℚ) : Option ViolinError :=
  if x.length ≠ y.length then
    some (.validationError "input parameter x should be of size of y")
  else if size.isNull then
    some (.validationError "input parameter size should have value >0")
  else if size.isArrMismatch x.length then
    some (.validationError "input parameter s should be of same size of (x, y)")
  else if stroke.isNull then
    some (.validationError "input parameter stroke should have hex value")
  else if stroke.isArrMismatch x.length then
    some (.validationError "input parameter stroke should be of same size of (x, y)")
  else if opacity.isNull then
    some (.validationError "input parameter opacity should have value in range [0..1]")
  else if opacity.isArrMismatch x.length then
    some (.validationError "input parameter opacity should be of same size of (x, y)")
  else none

/-- Embedding of `set_edge_properties`: validate, assemble the DataFrame,
drop missing `y`, filter on `x_order`, color from `y` when no color was
supplied.  The final `reset_index(drop=True)` is the identity on the list
model, whose rows are always indexed contiguously from 0. -/
def set_edge_properties (x : List String) (y : List CellVal) (config : Dict)
    (color : Param String) (size : Param ℚ) (stroke : Param String)
    (opacity : Param ℚ) (tooltip : Param String) : Except ViolinError (List Row) :=
  match edgeValidate x y size stroke opacity with
  | some e => .error e
  | none => .ok (applyColorStage color (cfgCmap config)
      (filterXOrder (cfgXOrder config)
        (dropNa (makeRows x y color size stroke opacity tooltip))))

theorem edgeValidate_eq_none_iff (x : List String) (y : List CellVal)
    (size : Param ℚ) (stroke : Param String) (opacity : Param ℚ) :
    edgeValidate x y size stroke opacity = none ↔
      (x.length = y.length ∧ size.isNull = false ∧
       size.isArrMismatch x.length = false ∧ stroke.isNull = false ∧
       stroke.isArrMismatch x.length = false ∧ opacity.isNull = false ∧
       opacity.isArrMismatch x.length = false) := by
  unfold edgeValidate
  split_ifs with h1 h2 h3 h4 h5 h6 h7 <;> simp_all

theorem edgeValidate_some_validation (x : List String) (y : List CellVal)
    (size : Param ℚ) (stroke : Param String) (opacity : Param ℚ)
    (e : ViolinError) (h : edgeValidate x y size stroke opacity = some e) :
    ∃ msg, e = .validationError msg := by
  unfold edgeValidate at h
  split_ifs at h <;> simp_all <;> exact ⟨_, h.symm⟩

theorem zip_self_map {α β : Type} (l : List α) (h : α → β) :
    l.zip (l.map h) = l.map (fun a => (a, h a)) := by
  induction l with
  | nil => rfl
  | cons a rest ih =>
      show (a, h a) :: rest.zip (rest.map h) = (a, h a) :: rest.map (fun a => (a, h a))
      rw [ih]

theorem applyColorStage_eq_map (color : Param String) (cmap : String)
    (rows : List Row) :
    applyColorStage color cmap rows = rows.map (fun r =>
      if color.isNull then { r with color := CellVal.str (cellColor cmap r.y) }
      else r) := by
  by_cases h : color.isNull
  · simp [applyColorStage, h, colourmap_fromlist, List.map_map, zip_self_map]
  · simp [applyColorStage, h]

theorem y_eq_of_mem_applyColorStage (color : Param String) (cmap : String)
    (rows : List Row) (r : Row) (h : r ∈ applyColorStage color cmap rows) :
    ∃ r₀ ∈ rows, r.y = r₀.y := by
  rw [applyColorStage_eq_map] at h
  obtain ⟨r₀, hr₀, hmap⟩ := List.mem_map.mp h
  refine ⟨r₀, hr₀, ?_⟩
  by_cases hc : color.isNull <;> simp [hc] at hmap <;> simp [← hmap]

theorem mem_of_mem_filterXOrder (xo : Option (List String)) (rows : List Row)
    (r : Row) (h : r ∈ filterXOrder xo rows) : r ∈ rows := by
  cases xo with
  | none => exact h
  | some classes => exact (List.mem_filter.mp h).1

theorem y_ne_null_of_mem_dropNa (rows : List Row) (r : Row)
    (h : r ∈ dropNa rows) : r.y ≠ CellVal.null := by
  have := (List.mem_filter.mp h).2
  exact of_decide_eq_true this

/-- The numeric entries of the `y` column, in order; `df['y'].max()` and
`df['y'].min()` skip missing values (`skipna`). -/
def dfYNums (df : List Row) : List ℚ :=
  df.filterMap (fun r => match r.y with | .num q => some q | _ => none)

/-- `df['y'].max()` over the numeric entries (0 as the value of the empty
column, which in pandas would be NaN — theorems about it assume a non-empty
numeric column). -/
def dfYMax (df : List Row) : ℚ :=
  match dfYNums df with
  | [] => 0
  | a :: rest => rest.foldl max a

/-- `df['y'].min()` over the numeric entries (same convention). -/
def dfYMin (df : List Row) : ℚ :=
  match dfYNums df with
  | [] => 0
  | a :: rest => rest.foldl min a

/-- Python's `str` of a list of strings: `str(['a', 'b']) = "['a', 'b']"`
(element escaping is not modelled). -/
def pyStrList (l : List String) : String :=
  "[" ++ String.intercalate ", " (l.map (fun s => "'" ++ s ++ "'")) ++ "]"

/-- Lines 151-154 of `show`: when `ylim` is `[None, None]` or empty, replace
it by `[min - spacing, max + spacing]` with `spacing = (max - min) * 0.10`. -/
def ylimStage (df : List Row) (c : Dict) : Dict :=
  match Dict.get? c "ylim" with
  | some (.vRatPair l) =>
      if l = [none, none] ∨ l.length = 0 then
        let sp := (dfYMax df - dfYMin df) * (1 / 10 : ℚ)
        Dict.set c "ylim" (.vRatPair [some (dfYMin df - sp), some (dfYMax df + sp)])
      else c
  | _ => c

/-- Lines 156-157 of `show`: when `x_order` is `None`, set it to
`str([*node_properties.keys()])` — the Python string rendering of the list
of label-property keys, in insertion order. -/
def xorderStage (np : List (String × NodeProp)) (c : Dict) : Dict :=
  match Dict.get? c "x_order" with
  | some .vNone => Dict.set c "x_order" (.vStr (pyStrList (np.map Prod.fst)))
  | _ => c

/-- Lines 158-159 of `show`: default the figure width
(`config['figsize'][0]`) to `len(node_properties) * 95` when `None`; the
element assignment mutates the stored list. -/
def figWidthStage (np : List (String × NodeProp)) (c : Dict) : Dict :=
  match Dict.get? c "figsize" with
  | some (.vRatPair l) =>
      if l.get? 0 = some none then
        Dict.set c "figsize" (.vRatPair (l.set 0 (some ((np.length : ℚ) * 95))))
      else c
  | _ => c

/-- Lines 160-161 of `show`: default the figure height
(`config['figsize'][1]`) to `400` when `None`. -/
def figHeightStage (c : Dict) : Dict :=
  match Dict.get? c "figsize" with
  | some (.vRatPair l) =>
      if l.get? 1 = some none then
        Dict.set c "figsize" (.vRatPair (l.set 1 (some 400)))
      else c
  | _ => c

/-- Lines 158-161 of `show`: both figure-size defaults, width then height. -/
def figsizeStage (np : List (String × NodeProp)) (c : Dict) : Dict :=
  figHeightStage (figWidthStage np c)

/-- Line 164 of `show`: `np.all(df['tooltip']=='') or
np.all(df['tooltip'].isna())` — all tooltips equal `''`, or all missing
(`np.all` of an empty column is true). -/
def tooltipsDisabled (df : List Row) : Bool :=
  df.all (fun r => r.tooltip == CellVal.str "") ||
    df.all (fun r => r.tooltip == CellVal.null)

/-- Lines 163-171 of `show`: set the three mouse-event template
substitutions to empty strings when tooltips are disabled, and to the
event-binding snippets otherwise. -/
def tooltipStage (df : List Row) (c : Dict) : Dict :=
  if tooltipsDisabled df then
    Dict.set (Dict.set (Dict.set c "mouseover" (.vStr ""))
      "mousemove" (.vStr "")) "mouseleave" (.vStr "")
  else
    Dict.set (Dict.set (Dict.set c
      "mouseover" (.vStr ".on(\"mouseover\", mouseover)"))
      "mousemove" (.vStr ".on(\"mousemove\", mousemove)"))
      "mouseleave" (.vStr ".on(\"mouseleave\", mouseleave)")

/-- JSON rendering of a string (escaping not modelled). -/
def jsonStr (s : String) : String := "\"" ++ s ++ "\""

/-- JSON rendering of a cell value. -/
def jsonOfCell : CellVal → String
  | .null => "null"
  | .num q => ratStr q
  | .str s => jsonStr s

/-- One record of `to_json(orient='records')`, fields in the source's column
order `x, y, color, size, stroke, opacity, tooltip`. -/
def jsonOfRow (r : Row) : String :=
  "\x7b" ++ jsonStr "x" ++ ":" ++ jsonStr r.x ++ "," ++
    jsonStr "y" ++ ":" ++ jsonOfCell r.y ++ "," ++
    jsonStr "color" ++ ":" ++ jsonOfCell r.color ++ "," ++
    jsonStr "size" ++ ":" ++ jsonOfCell r.size ++ "," ++
    jsonStr "stroke" ++ ":" ++ jsonOfCell r.stroke ++ "," ++
    jsonStr "opacity" ++ ":" ++ jsonOfCell r.opacity ++ "," ++
    jsonStr "tooltip" ++ ":" ++ jsonOfCell r.tooltip ++ "\x7d"

/-- Embedding of `get_data_ready_for_d3`.  The statement
`df['y'] = df['y'].astype(str)` mutates the caller's DataFrame in place, so
the function returns the updated frame (the caller's frame after the call)
together with the JSON string built from it. -/
def get_data_ready_for_d3 (df : List Row) : List Row × String :=
  let df2 := df.map (fun r => { r with y := CellVal.str (cellToStr r.y) })
  (df2, "[" ++ String.intercalate "," (df2.map jsonOfRow) ++ "]")

/-- Embedding of `show` (named `show_violin` because `show` is a Lean
keyword).  `convert_dataframe_dict` — a collaborator outside the provided
source — is, per the spec, the normalization between loose and canonical
shapes and is modelled as the identity on the canonical inputs given here,
so the DataFrame it returns is the caller's own frame.  The four
configuration steps run in source order, then the data is serialized
(mutating the frame's `y` column) and handed to the template writer; the
file write itself is I/O and is not part of the embedding.  The result is
the updated configuration, the caller's DataFrame after the call, and the
serialized JSON. -/
def show_violin (df : List Row) (config : Dict)
    (node_properties : List (String × NodeProp)) : Dict × List Row × String :=
  let c1 := ylimStage df config
  let c2 := xorderStage node_properties c1
  let c3 := figsizeStage node_properties c2
  let c4 := tooltipStage df c3
  let dX := get_data_ready_for_d3 df
  (c4, dX.1, dX.2)

theorem ylimStage_get_other (df : List Row) (c : Dict) (k : String)
    (hk : k ≠ "ylim") : Dict.get? (ylimStage df c) k = Dict.get? c k := by
  have hne : ¬ ("ylim" = k) := fun h => hk h.symm
  unfold ylimStage
  split
  · split
    · rw [Dict.get?_set, if_neg hne]
    · rfl
  · rfl

theorem xorderStage_get_other (np : List (String × NodeProp)) (c : Dict)
    (k : String) (hk : k ≠ "x_order") :
    Dict.get? (xorderStage np c) k = Dict.get? c k := by
  have hne : ¬ ("x_order" = k) := fun h => hk h.symm
  unfold xorderStage
  split
  · rw [Dict.get?_set, if_neg hne]
  · rfl

theorem figWidthStage_get_other (np : List (String × NodeProp)) (c : Dict)
    (k : String) (hk : k ≠ "figsize") :
    Dict.get? (figWidthStage np c) k = Dict.get? c k := by
  have hne : ¬ ("figsize" = k) := fun h => hk h.symm
  unfold figWidthStage
  split
  · split
    · rw [Dict.get?_set, if_neg hne]
    · rfl
  · rfl

theorem figHeightStage_get_other (c : Dict) (k : String)
    (hk : k ≠ "figsize") :
    Dict.get? (figHeightStage c) k = Dict.get? c k := by
  have hne : ¬ ("figsize" = k) := fun h => hk h.symm
  unfold figHeightStage
  split
  · split
    · rw [Dict.get?_set, if_neg hne]
    · rfl
  · rfl

theorem figsizeStage_get_other (np : List (String × NodeProp)) (c : Dict)
    (k : String) (hk : k ≠ "figsize") :
    Dict.get? (figsizeStage np c) k = Dict.get? c k := by
  rw [figsizeStage, figHeightStage_get_other _ _ hk, figWidthStage_get_other _ _ _ hk]

theorem tooltipStage_get_other (df : List Row) (c : Dict) (k : String)
    (h1 : k ≠ "mouseover") (h2 : k ≠ "mousemove") (h3 : k ≠ "mouseleave") :
    Dict.get? (tooltipStage df c) k = Dict.get? c k := by
  have hne1 : ¬ ("mouseover" = k) := fun h => h1 h.symm
  have hne2 : ¬ ("mousemove" = k) := fun h => h2 h.symm
  have hne3 : ¬ ("mouseleave" = k) := fun h => h3 h.symm
  unfold tooltipStage
  split <;>
    rw [Dict.get?_set, if_neg hne3, Dict.get?_set, if_neg hne2,
      Dict.get?_set, if_neg hne1]

theorem ylimStage_get_ylim (df : List Row) (c : Dict) (l : List (Option ℚ))
    (hy : Dict.get? c "ylim" = some (.vRatPair l))
    (hcond : l = [none, none] ∨ l.length = 0) :
    Dict.get? (ylimStage df c) "ylim" =
      some (.vRatPair
        [some (dfYMin df - (dfYMax df - dfYMin df) * (1 / 10 : ℚ)),
         some (dfYMax df + (dfYMax df - dfYMin df) * (1 / 10 : ℚ))]) := by
  unfold ylimStage
  rw [hy]
  split
  · rename_i l2 heq
    cases heq
    split
    · simp [Dict.get?_set]
    · rename_i hneg
      apply absurd _ hneg
      rcases hcond with h | h
      · exact Or.inl h
      · exact Or.inr (by simpa using h)
  · rename_i hcontra
    exact (hcontra l rfl).elim

theorem xorderStage_get_xorder (np : List (String × NodeProp)) (c : Dict)
    (hx : Dict.get? c "x_order" = some CfgVal.vNone) :
    Dict.get? (xorderStage np c) "x_order" =
      some (.vStr (pyStrList (np.map Prod.fst))) := by
  unfold xorderStage
  rw [hx]
  simp [Dict.get?_set]

theorem set_edge_properties_ok (x : List String) (y : List CellVal)
    (config : Dict) (color : Param String) (size : Param ℚ)
    (stroke : Param String) (opacity : Param ℚ) (tooltip : Param String)
    (rows : List Row)
    (h : set_edge_properties x y config color size stroke opacity tooltip = .ok rows) :
    rows = applyColorStage color (cfgCmap config)
      (filterXOrder (cfgXOrder config)
        (dropNa (makeRows x y color size stroke opacity tooltip))) := by
  unfold set_edge_properties at h
  cases hv : edgeValidate x y size stroke opacity with
  | some e => rw [hv] at h; exact Except.noConfusion h
  | none => rw [hv] at h; exact (Except.ok.inj h).symm

theorem tooltipStage_get_mouse (df : List Row) (c : Dict) :
    Dict.get? (tooltipStage df c) "mouseover" =
      some (.vStr (if tooltipsDisabled df then "" else ".on(\"mouseover\", mouseover)")) ∧
    Dict.get? (tooltipStage df c) "mousemove" =
      some (.vStr (if tooltipsDisabled df then "" else ".on(\"mousemove\", mousemove)")) ∧
    Dict.get? (tooltipStage df c) "mouseleave" =
      some (.vStr (if tooltipsDisabled df then "" else ".on(\"mouseleave\", mouseleave)")) := by
  unfold tooltipStage
  by_cases h : tooltipsDisabled df <;> simp [h, Dict.get?_set]

/-!
The claim theorems.
-/

/-- Claim C1, amended: for every configuration whose `x_order` is a
non-null, non-empty category list, `set_edge_properties` retains exactly the
(NaN-cleaned) rows whose `x` has some allowed category occurring inside it
as a substring — substring semantics, not exact set membership.  (With an
empty `x_order` list the joined pattern is the empty string, which matches
every row; see the counterexample.)  Stated with an explicitly supplied
color so that the later color stage leaves the filtered rows unchanged. -/
theorem violin_C1_amended (x : List String) (y : List CellVal) (config : Dict)
    (c : String) (size : Param ℚ) (stroke : Param String) (opacity : Param ℚ)
    (tooltip : Param String) (xo : List String) (rows : List Row)
    (hxo : cfgXOrder config = some xo) (hne : xo ≠ [])
    (hok : set_edge_properties x y config (Param.scalar c) size stroke opacity
      tooltip = .ok rows) :
    ∀ r, r ∈ rows ↔
      (r ∈ dropNa (makeRows x y (Param.scalar c) size stroke opacity tooltip) ∧
       xo.any (fun p => strContainsSub p r.x) = true) := by
  obtain ⟨a, t, rfl⟩ : ∃ a t, xo = a :: t := by
    cases xo with
    | nil => exact absurd rfl hne
    | cons a t => exact ⟨a, t, rfl⟩
  have hrows := set_edge_properties_ok x y config (Param.scalar c) size stroke
    opacity tooltip rows hok
  intro r
  rw [hrows, hxo]
  rw [show applyColorStage (Param.scalar c) (cfgCmap config)
      (filterXOrder (some (a :: t))
        (dropNa (makeRows x y (Param.scalar c) size stroke opacity tooltip))) =
      filterXOrder (some (a :: t))
        (dropNa (makeRows x y (Param.scalar c) size stroke opacity tooltip))
    from by simp [applyColorStage, Param.isNull]]
  simp [filterXOrder, List.mem_filter, containsJoined]

/-- Claim C1, counterexample to the claim as stated: with the non-null but
empty `x_order` list, the joined pattern `"|".join([])` is the empty string,
`str.contains` matches every row, and the row with `x = "z"` is retained even
though no allowed-category pattern occurs inside `"z"`. -/
theorem violin_C1_counterexample :
    set_edge_properties ["z"] [CellVal.num 1]
        [("x_order", CfgVal.vStrList []), ("cmap", CfgVal.vStr "inferno")]
        (Param.scalar "#fff") (Param.scalar 5) (Param.scalar "#ffffff")
        (Param.scalar (4 / 5)) (Param.scalar "") =
      .ok [⟨"z", CellVal.num 1, CellVal.str "#fff", CellVal.num 5,
            CellVal.str "#ffffff", CellVal.num (4 / 5), CellVal.str ""⟩] ∧
    (([] : List String).any (fun p => strContainsSub p "z")) = false :=
  ⟨rfl, rfl⟩

/-- Claim C1, witness for the amended theorem: filtering on `x_order = ["a"]`
retains the row with `x = "cat"` because `"a"` occurs inside `"cat"`, even
though `"cat"` is not a member of the allowed set — substring semantics. -/
theorem violin_C1_witness :
    (set_edge_properties ["cat"] [CellVal.num 1]
        [("x_order", CfgVal.vStrList ["a"]), ("cmap", CfgVal.vStr "inferno")]
        (Param.scalar "#fff") (Param.scalar 5) (Param.scalar "#ffffff")
        (Param.scalar (4 / 5)) (Param.scalar "") =
      .ok [⟨"cat", CellVal.num 1, CellVal.str "#fff", CellVal.num 5,
            CellVal.str "#ffffff", CellVal.num (4 / 5), CellVal.str ""⟩]) ∧
    ((⟨"cat", CellVal.num 1, CellVal.str "#fff", CellVal.num 5,
        CellVal.str "#ffffff", CellVal.num (4 / 5), CellVal.str ""⟩ : Row) ∈
      dropNa (makeRows ["cat"] [CellVal.num 1] (Param.scalar "#fff")
        (Param.scalar 5) (Param.scalar "#ffffff") (Param.scalar (4 / 5))
        (Param.scalar "")) ∧
     (["a"] : List String).any (fun p => strContainsSub p
       (⟨"cat", CellVal.num 1, CellVal.str "#fff", CellVal.num 5,
          CellVal.str "#ffffff", CellVal.num (4 / 5), CellVal.str ""⟩ : Row).x) = true) ∧
    "cat" ∉ (["a"] : List String) := by
  refine ⟨rfl, ?_, by decide⟩
  exact (violin_C1_amended ["cat"] [CellVal.num 1]
    [("x_order", CfgVal.vStrList ["a"]), ("cmap", CfgVal.vStr "inferno")]
    "#fff" (Param.scalar 5) (Param.scalar "#ffffff") (Param.scalar (4 / 5))
    (Param.scalar "") ["a"]
    [⟨"cat", CellVal.num 1, CellVal.str "#fff", CellVal.num 5,
       CellVal.str "#ffffff", CellVal.num (4 / 5), CellVal.str ""⟩]
    rfl (by decide) rfl _).mp (List.mem_singleton.mpr rfl)

/-- Claim C2: whenever `len(x) != len(y)`, or `size`, `stroke` or `opacity`
is null or is an array of length different from `len(x)`,
`set_edge_properties` fails with a `ValidationError` and produces no record
set. -/
theorem violin_C2 (x : List String) (y : List CellVal) (config : Dict)
    (color : Param String) (size : Param ℚ) (stroke : Param String)
    (opacity : Param ℚ) (tooltip : Param String)
    (h : x.length ≠ y.length ∨ size.isNull = true ∨
      size.isArrMismatch x.length = true ∨ stroke.isNull = true ∨
      stroke.isArrMismatch x.length = true ∨ opacity.isNull = true ∨
      opacity.isArrMismatch x.length = true) :
    ∃ msg, set_edge_properties x y config color size stroke opacity tooltip =
      .error (.validationError msg) := by
  cases hv : edgeValidate x y size stroke opacity with
  | some e =>
      obtain ⟨msg, rfl⟩ := edgeValidate_some_validation x y size stroke opacity e hv
      exact ⟨msg, by simp [set_edge_properties, hv]⟩
  | none =>
      exfalso
      rw [edgeValidate_eq_none_iff] at hv
      rcases h with h | h | h | h | h | h | h <;> simp_all

/-- Claim C2, witness: `x` of length 1 against an empty `y` is rejected with
a `ValidationError`. -/
theorem violin_C2_witness :
    ((["a"] : List String).length ≠ ([] : List CellVal).length) ∧
    (∃ msg, set_edge_properties ["a"] []
        [("x_order", CfgVal.vNone), ("cmap", CfgVal.vStr "inferno")]
        Param.null (Param.scalar 5) (Param.scalar "#ffffff")
        (Param.scalar (4 / 5)) (Param.scalar "") =
      .error (.validationError msg)) := by
  refine ⟨by decide, ?_⟩
  exact violin_C2 ["a"] []
    [("x_order", CfgVal.vNone), ("cmap", CfgVal.vStr "inferno")]
    Param.null (Param.scalar 5) (Param.scalar "#ffffff")
    (Param.scalar (4 / 5)) (Param.scalar "") (Or.inl (by decide))

/-- Claim C3: on any label sequence whose preprocessed form is non-empty,
`set_labels` returns the unique values in first-occurrence order (equal to
the spec's fold that appends each value the first time it is seen; no
duplicates; same membership as the input), and `set_node_properties` maps
those unique labels, in the same order, to records `{id, label}` whose ids
are the dense integers 0, 1, 2, … -/
theorem violin_C3 (labels : List (Option String))
    (h : pre_processing labels ≠ []) :
    set_labels labels = .ok (uniqueFirstOcc (pre_processing labels)) ∧
    uniqueFirstOcc (pre_processing labels) =
      firstOccurrenceOrderSpec (pre_processing labels) ∧
    (uniqueFirstOcc (pre_processing labels)).Nodup ∧
    (∀ a, a ∈ uniqueFirstOcc (pre_processing labels) ↔
      a ∈ pre_processing labels) ∧
    ∃ props, set_node_properties labels = .ok props ∧
      props.map Prod.fst = uniqueFirstOcc (pre_processing labels) ∧
      props.map (fun e => e.2.id) =
        List.range (uniqueFirstOcc (pre_processing labels)).length ∧
      ∀ e ∈ props, e.2.label = e.1 := by
  have hpos : 0 < (pre_processing labels).length := List.length_pos.mpr h
  have hlen : ¬ (pre_processing labels).length < 1 := by omega
  have hsl : set_labels labels = .ok (uniqueFirstOcc (pre_processing labels)) := by
    simp [set_labels, hlen]
  refine ⟨hsl, uniqueFirstOcc_eq_spec _, uniqueFirstOccAux_nodup _ _, ?_, ?_⟩
  · intro a
    simpa [uniqueFirstOcc] using mem_uniqueFirstOccAux (pre_processing labels) [] a
  · refine ⟨(uniqueFirstOcc (pre_processing labels)).enum.map
      (fun p => (p.2, ⟨p.1, p.2⟩)), ?_, ?_, ?_, ?_⟩
    · simp [set_node_properties, hsl]
    · rw [List.map_map]
      have : (Prod.fst ∘ fun p : Nat × String =>
          (p.2, (⟨p.1, p.2⟩ : NodeProp))) = Prod.snd := rfl
      rw [this, List.enum_map_snd]
    · rw [List.map_map]
      have : ((fun e : String × NodeProp => e.2.id) ∘ fun p : Nat × String =>
          (p.2, (⟨p.1, p.2⟩ : NodeProp))) = Prod.fst := rfl
      rw [this, List.enum_map_fst]
    · intro e he
      obtain ⟨p, _, rfl⟩ := List.mem_map.mp he
      rfl

/-- Claim C3, witness: the spec's example `["b","a","b","c","a"]` yields
`["b","a","c"]` and the node-property records with dense ids 0, 1, 2. -/
theorem violin_C3_witness :
    set_labels [some "b", some "a", some "b", some "c", some "a"] =
      .ok ["b", "a", "c"] ∧
    set_node_properties [some "b", some "a", some "b", some "c", some "a"] =
      .ok [("b", ⟨0, "b"⟩), ("a", ⟨1, "a"⟩), ("c", ⟨2, "c"⟩)] := by
  have h := violin_C3 [some "b", some "a", some "b", some "c", some "a"] (by decide)
  exact ⟨h.1.trans (by rfl), by rfl⟩

/-- Claim C4: every row of a successfully produced record set has a
non-missing `y` (rows with missing `y` are dropped); on the list model the
row indexing of the result is contiguous from 0 by construction. -/
theorem violin_C4 (x : List String) (y : List CellVal) (config : Dict)
    (color : Param String) (size : Param ℚ) (stroke : Param String)
    (opacity : Param ℚ) (tooltip : Param String) (rows : List Row)
    (hok : set_edge_properties x y config color size stroke opacity tooltip =
      .ok rows) :
    ∀ r ∈ rows, r.y ≠ CellVal.null := by
  intro r hr
  have hrows := set_edge_properties_ok x y config color size stroke opacity
    tooltip rows hok
  rw [hrows] at hr
  obtain ⟨r₀, hr₀, hy⟩ := y_eq_of_mem_applyColorStage _ _ _ _ hr
  rw [hy]
  exact y_ne_null_of_mem_dropNa _ _ (mem_of_mem_filterXOrder _ _ _ hr₀)

/-- Claim C4, witness: `x = ["a","b"]`, `y = [1, null]` produces exactly one
row (the second row is dropped), and that row's `y` is not missing. -/
theorem violin_C4_witness :
    (set_edge_properties ["a", "b"] [CellVal.num 1, CellVal.null]
        [("x_order", CfgVal.vNone), ("cmap", CfgVal.vStr "inferno")]
        Param.null (Param.scalar 5) (Param.scalar "#ffffff")
        (Param.scalar (4 / 5)) (Param.scalar "") =
      .ok [⟨"a", CellVal.num 1, CellVal.str "inferno:1", CellVal.num 5,
            CellVal.str "#ffffff", CellVal.num (4 / 5), CellVal.str ""⟩]) ∧
    (⟨"a", CellVal.num 1, CellVal.str "inferno:1", CellVal.num 5,
       CellVal.str "#ffffff", CellVal.num (4 / 5), CellVal.str ""⟩ : Row).y ≠
      CellVal.null := by
  refine ⟨rfl, ?_⟩
  exact violin_C4 ["a", "b"] [CellVal.num 1, CellVal.null]
    [("x_order", CfgVal.vNone), ("cmap", CfgVal.vStr "inferno")]
    Param.null (Param.scalar 5) (Param.scalar "#ffffff")
    (Param.scalar (4 / 5)) (Param.scalar "")
    [⟨"a", CellVal.num 1, CellVal.str "inferno:1", CellVal.num 5,
       CellVal.str "#ffffff", CellVal.num (4 / 5), CellVal.str ""⟩]
    rfl _ (List.mem_singleton.mpr rfl)

/-- Claim C5: when the configuration's `ylim` is `[null, null]` or empty,
the renderer computes `y_spacing = (max(y) - min(y)) * 0.10` over the
numeric `y` column and sets `ylim = [min(y) - y_spacing, max(y) +
y_spacing]`.  The hypothesis that the numeric `y` column is non-empty keeps
the rational model honest: on an empty column pandas would produce NaN. -/
theorem violin_C5 (df : List Row) (config : Dict)
    (np : List (String × NodeProp)) (l : List (Option ℚ))
    (hy : Dict.get? config "ylim" = some (.vRatPair l))
    (hcond : l = [none, none] ∨ l.length = 0)
    (_hnum : dfYNums df ≠ []) :
    Dict.get? (show_violin df config np).1 "ylim" =
      some (.vRatPair
        [some (dfYMin df - (dfYMax df - dfYMin df) * (1 / 10 : ℚ)),
         some (dfYMax df + (dfYMax df - dfYMin df) * (1 / 10 : ℚ))]) := by
  show Dict.get? (tooltipStage df (figsizeStage np (xorderStage np
    (ylimStage df config)))) "ylim" = _
  rw [tooltipStage_get_other _ _ _ (by decide) (by decide) (by decide),
      figsizeStage_get_other _ _ _ (by decide),
      xorderStage_get_other _ _ _ (by decide),
      ylimStage_get_ylim df config l hy hcond]

/-- Claim C5, witness: `y` values `[0, 10]` with `ylim = [null, null]` give
`ylim = [-1, 11]` (spacing is 10% of the range, i.e. 1). -/
theorem violin_C5_witness :
    Dict.get? (show_violin
        [⟨"a", CellVal.num 0, CellVal.str "c", CellVal.num 5, CellVal.str "s",
           CellVal.num 1, CellVal.str ""⟩,
         ⟨"a", CellVal.num 10, CellVal.str "c", CellVal.num 5, CellVal.str "s",
           CellVal.num 1, CellVal.str ""⟩]
        [("ylim", CfgVal.vRatPair [none, none]), ("x_order", CfgVal.vNone),
         ("figsize", CfgVal.vRatPair [none, none])]
        [("a", ⟨0, "a"⟩)]).1 "ylim" =
      some (CfgVal.vRatPair [some (-1 : ℚ), some (11 : ℚ)]) := by
  have h := violin_C5
    [⟨"a", CellVal.num 0, CellVal.str "c", CellVal.num 5, CellVal.str "s",
       CellVal.num 1, CellVal.str ""⟩,
     ⟨"a", CellVal.num 10, CellVal.str "c", CellVal.num 5, CellVal.str "s",
       CellVal.num 1, CellVal.str ""⟩]
    [("ylim", CfgVal.vRatPair [none, none]), ("x_order", CfgVal.vNone),
     ("figsize", CfgVal.vRatPair [none, none])]
    [("a", ⟨0, "a"⟩)] [none, none] rfl (Or.inl rfl) (by decide)
  have hmax : dfYMax
      [⟨"a", CellVal.num 0, CellVal.str "c", CellVal.num 5, CellVal.str "s",
         CellVal.num 1, CellVal.str ""⟩,
       ⟨"a", CellVal.num 10, CellVal.str "c", CellVal.num 5, CellVal.str "s",
         CellVal.num 1, CellVal.str ""⟩] = 10 := by
    show (max 0 10 : ℚ) = 10
    norm_num
  have hmin : dfYMin
      [⟨"a", CellVal.num 0, CellVal.str "c", CellVal.num 5, CellVal.str "s",
         CellVal.num 1, CellVal.str ""⟩,
       ⟨"a", CellVal.num 10, CellVal.str "c", CellVal.num 5, CellVal.str "s",
         CellVal.num 1, CellVal.str ""⟩] = 0 := by
    show (min 0 10 : ℚ) = 0
    norm_num
  rw [hmax, hmin] at h
  exact h.trans (by norm_num)

/-- Claim C6, amended: the three mouse-event substitutions are set to empty
strings exactly when all tooltips equal `''` or all tooltips are missing
(`tooltipsDisabled`), and to the event-binding snippets otherwise.  The
claim's reading — "every row's tooltip is empty or null" — differs: a frame
mixing `''` and null tooltips satisfies it, yet the code enables the
bindings there (see the counterexample). -/
theorem violin_C6_amended (df : List Row) (config : Dict)
    (np : List (String × NodeProp)) :
    Dict.get? (show_violin df config np).1 "mouseover" =
      some (.vStr (if tooltipsDisabled df then ""
        else ".on(\"mouseover\", mouseover)")) ∧
    Dict.get? (show_violin df config np).1 "mousemove" =
      some (.vStr (if tooltipsDisabled df then ""
        else ".on(\"mousemove\", mousemove)")) ∧
    Dict.get? (show_violin df config np).1 "mouseleave" =
      some (.vStr (if tooltipsDisabled df then ""
        else ".on(\"mouseleave\", mouseleave)")) :=
  tooltipStage_get_mouse df _

/-- Claim C6, counterexample to the claim as stated: in a frame whose first
tooltip is null and whose second is the empty string, every row's tooltip is
empty or null, yet `np.all(df['tooltip']=='')` and
`np.all(df['tooltip'].isna())` are both false, so all three substitutions
are set to the event-binding snippets instead of empty strings. -/
theorem violin_C6_counterexample :
    (([⟨"a", CellVal.num 1, CellVal.str "c", CellVal.num 5, CellVal.str "s",
         CellVal.num 1, CellVal.null⟩,
       ⟨"b", CellVal.num 2, CellVal.str "c", CellVal.num 5, CellVal.str "s",
         CellVal.num 1, CellVal.str ""⟩] : List Row).all
      (fun r => r.tooltip == CellVal.str "" || r.tooltip == CellVal.null)) = true ∧
    Dict.get? (show_violin
        [⟨"a", CellVal.num 1, CellVal.str "c", CellVal.num 5, CellVal.str "s",
           CellVal.num 1, CellVal.null⟩,
         ⟨"b", CellVal.num 2, CellVal.str "c", CellVal.num 5, CellVal.str "s",
           CellVal.num 1, CellVal.str ""⟩]
        [("ylim", CfgVal.vRatPair [some 0, some 1]), ("x_order", CfgVal.vNone),
         ("figsize", CfgVal.vRatPair [some 1, some 2])]
        []).1 "mouseover" = some (CfgVal.vStr ".on(\"mouseover\", mouseover)") ∧
    Dict.get? (show_violin
        [⟨"a", CellVal.num 1, CellVal.str "c", CellVal.num 5, CellVal.str "s",
           CellVal.num 1, CellVal.null⟩,
         ⟨"b", CellVal.num 2, CellVal.str "c", CellVal.num 5, CellVal.str "s",
           CellVal.num 1, CellVal.str ""⟩]
        [("ylim", CfgVal.vRatPair [some 0, some 1]), ("x_order", CfgVal.vNone),
         ("figsize", CfgVal.vRatPair [some 1, some 2])]
        []).1 "mouseover" ≠ some (CfgVal.vStr "") := by
  refine ⟨by decide, by decide, by decide⟩

/-- Claim C7: when the preprocessed label sequence is empty, `set_labels`
fails immediately with the spec's `DataError`. -/
theorem violin_C7 (labels : List (Option String))
    (h : (pre_processing labels).length < 1) :
    set_labels labels = .error (.dataError "Could not extract the labels!") := by
  simp [set_labels, h]

/-- Claim C7, witness: a single null label preprocesses to the empty
sequence and `set_labels` raises the `DataError`. -/
theorem violin_C7_witness :
    (pre_processing [(none : Option String)]).length < 1 ∧
    set_labels [(none : Option String)] =
      .error (.dataError "Could not extract the labels!") :=
  ⟨by decide, violin_C7 [none] (by decide)⟩

/-- Claim C8, amended: when the configuration's `x_order` is null, the
renderer sets it to `str([*node_properties.keys()])` — the Python string
rendering of the ordered list of label-property keys (insertion order
preserved) — not to the list itself (see the counterexample). -/
theorem violin_C8_amended (df : List Row) (config : Dict)
    (np : List (String × NodeProp))
    (hx : Dict.get? config "x_order" = some CfgVal.vNone) :
    Dict.get? (show_violin df config np).1 "x_order" =
      some (.vStr (pyStrList (np.map Prod.fst))) := by
  show Dict.get? (tooltipStage df (figsizeStage np (xorderStage np
    (ylimStage df config)))) "x_order" = _
  rw [tooltipStage_get_other _ _ _ (by decide) (by decide) (by decide),
      figsizeStage_get_other _ _ _ (by decide)]
  exact xorderStage_get_xorder np _
    (by rw [ylimStage_get_other _ _ _ (by decide), hx])

/-- Claim C8, witness for the amended theorem: with the single
label-property key `"a"`, the null `x_order` becomes the string `"['a']"`. -/
theorem violin_C8_witness :
    Dict.get? (show_violin []
        [("ylim", CfgVal.vRatPair [some 0, some 1]), ("x_order", CfgVal.vNone),
         ("figsize", CfgVal.vRatPair [some 1, some 2])]
        [("a", ⟨0, "a"⟩)]).1 "x_order" = some (CfgVal.vStr "['a']") := by
  have h := violin_C8_amended []
    [("ylim", CfgVal.vRatPair [some 0, some 1]), ("x_order", CfgVal.vNone),
     ("figsize", CfgVal.vRatPair [some 1, some 2])]
    [("a", ⟨0, "a"⟩)] rfl
  exact h.trans (by decide)

/-- Claim C8, counterexample to the claim as stated: the value written into
`x_order` is the string `"['a']"`, which is not the list `["a"]` of
label-property keys. -/
theorem violin_C8_counterexample :
    Dict.get? (show_violin []
        [("ylim", CfgVal.vRatPair [some 0, some 1]),
         ("x_order", CfgVal.vNone),
         ("figsize", CfgVal.vRatPair [some 0, some 1])]
        [("a", ⟨0, "a"⟩)]).1 "x_order" = some (CfgVal.vStr "['a']") ∧
    Dict.get? (show_violin []
        [("ylim", CfgVal.vRatPair [some 0, some 1]),
         ("x_order", CfgVal.vNone),
         ("figsize", CfgVal.vRatPair [some 0, some 1])]
        [("a", ⟨0, "a"⟩)]).1 "x_order" ≠ some (CfgVal.vStrList ["a"]) := by
  refine ⟨by decide, by decide⟩

/-- Claim C9, amended: `set_config` populates every recognized option with
the override value or the stated default and ignores unknown override keys
(entries of the mapping under other keys are untouched), but it is not
side-effect free: it updates the caller-supplied configuration mapping in
place, so the caller's mapping after the call (the returned mapping in this
state-passing embedding) differs from the mapping passed in (see the
counterexample). -/
theorem violin_C9_amended (cfg kw : Dict) :
    Dict.get? (set_config cfg kw) "chart" = some (CfgVal.vStr "violin") ∧
    Dict.get? (set_config cfg kw) "title" =
      some (kwGet kw "title" (CfgVal.vStr "Violin - D3blocks")) ∧
    Dict.get? (set_config cfg kw) "filepath" =
      some (applySetPath (kwGet kw "filepath" (CfgVal.vStr "violin.html"))) ∧
    Dict.get? (set_config cfg kw) "figsize" =
      some (kwGet kw "figsize" (CfgVal.vRatPair [none, none])) ∧
    Dict.get? (set_config cfg kw) "showfig" =
      some (kwGet kw "showfig" (CfgVal.vBool true)) ∧
    Dict.get? (set_config cfg kw) "overwrite" =
      some (kwGet kw "overwrite" (CfgVal.vBool true)) ∧
    Dict.get? (set_config cfg kw) "bins" =
      some (kwGet kw "bins" (CfgVal.vNat 20)) ∧
    Dict.get? (set_config cfg kw) "cmap" =
      some (kwGet kw "cmap" (CfgVal.vStr "inferno")) ∧
    Dict.get? (set_config cfg kw) "ylim" =
      some (kwGet kw "ylim" (CfgVal.vRatPair [none, none])) ∧
    Dict.get? (set_config cfg kw) "x_order" =
      some (kwGet kw "x_order" CfgVal.vNone) ∧
    Dict.get? (set_config cfg kw) "reset_properties" =
      some (kwGet kw "reset_properties" (CfgVal.vBool true)) ∧
    ∀ k, k ∉ recognizedConfigKeys →
      Dict.get? (set_config cfg kw) k = Dict.get? cfg k := by
  refine ⟨?_, ?_, ?_, ?_, ?_, ?_, ?_, ?_, ?_, ?_, ?_, ?_⟩
  case _ => simp [set_config, Dict.get?_set]
  case _ => simp [set_config, Dict.get?_set]
  case _ => simp [set_config, Dict.get?_set]
  case _ => simp [set_config, Dict.get?_set]
  case _ => simp [set_config, Dict.get?_set]
  case _ => simp [set_config, Dict.get?_set]
  case _ => simp [set_config, Dict.get?_set]
  case _ => simp [set_config, Dict.get?_set]
  case _ => simp [set_config, Dict.get?_set]
  case _ => simp [set_config, Dict.get?_set]
  case _ => simp [set_config, Dict.get?_set]
  case _ =>
    intro k hk
    simp [recognizedConfigKeys] at hk
    obtain ⟨h1, h2, h3, h4, h5, h6, h7, h8, h9, h10, h11⟩ := hk
    simp [set_config, Dict.get?_set, Ne.symm h1, Ne.symm h2, Ne.symm h3,
      Ne.symm h4, Ne.symm h5, Ne.symm h6, Ne.symm h7, Ne.symm h8, Ne.symm h9,
      Ne.symm h10, Ne.symm h11]

/-- Claim C9, counterexample to the "no side effects" part of the claim as
stated: the caller's mapping is updated in place — after the call the
caller's mapping is no longer what was passed in (it has gained the eleven
recognized keys), although its pre-existing entry under an unrecognized key
survives inside it. -/
theorem violin_C9_counterexample :
    set_config [("userkey", CfgVal.vBool true)] [] ≠
      [("userkey", CfgVal.vBool true)] ∧
    ("userkey", CfgVal.vBool true) ∈ set_config [("userkey", CfgVal.vBool true)] [] := by
  refine ⟨by decide, by decide⟩

/-- Claim C9, witness for the amended theorem: an override is taken and an
unrecognized pre-existing entry of the caller's mapping is preserved. -/
theorem violin_C9_witness :
    Dict.get? (set_config [("userkey", CfgVal.vBool true)]
      [("title", CfgVal.vStr "T")]) "title" = some (CfgVal.vStr "T") ∧
    Dict.get? (set_config [("userkey", CfgVal.vBool true)]
      [("title", CfgVal.vStr "T")]) "userkey" = some (CfgVal.vBool true) := by
  have h := violin_C9_amended [("userkey", CfgVal.vBool true)]
    [("title", CfgVal.vStr "T")]
  refine ⟨h.2.1.trans (by decide), ?_⟩
  exact (h.2.2.2.2.2.2.2.2.2.2.2 "userkey" (by decide)).trans (by decide)

/-- Claim C10: serialization mutates the caller's record set in place — the
frame after a `show` call (returned explicitly by this state-passing
embedding) is the input frame with every `y` replaced by its string
representation, and the JSON string is built from that converted frame. -/
theorem violin_C10 (df : List Row) (config : Dict)
    (np : List (String × NodeProp)) :
    (show_violin df config np).2.1 =
      df.map (fun r => { r with y := CellVal.str (cellToStr r.y) }) ∧
    (∀ r ∈ (show_violin df config np).2.1, ∃ s, r.y = CellVal.str s) ∧
    (show_violin df config np).2.2 =
      "[" ++ String.intercalate ","
        (((show_violin df config np).2.1).map jsonOfRow) ++ "]" := by
  refine ⟨rfl, ?_, rfl⟩
  intro r hr
  have h1 : (show_violin df config np).2.1 =
      df.map (fun r => { r with y := CellVal.str (cellToStr r.y) }) := rfl
  rw [h1] at hr
  obtain ⟨r₀, _, rfl⟩ := List.mem_map.mp hr
  exact ⟨cellToStr r₀.y, rfl⟩

/-- Claim C10, witness: after a render call on a one-row frame with numeric
`y = 1`, the caller's frame holds the string form of `y`. -/
theorem violin_C10_witness :
    (show_violin
        [⟨"a", CellVal.num 1, CellVal.str "c", CellVal.num 5, CellVal.str "s",
           CellVal.num 1, CellVal.str ""⟩]
        [("ylim", CfgVal.vRatPair [some 0, some 1]), ("x_order", CfgVal.vNone),
         ("figsize", CfgVal.vRatPair [some 1, some 2])]
        []).2.1 =
      [⟨"a", CellVal.str "1", CellVal.str "c", CellVal.num 5, CellVal.str "s",
         CellVal.num 1, CellVal.str ""⟩] ∧
    ∃ s, (⟨"a", CellVal.str "1", CellVal.str "c", CellVal.num 5,
      CellVal.str "s", CellVal.num 1, CellVal.str ""⟩ : Row).y =
        CellVal.str s := by
  have h := violin_C10
    [⟨"a", CellVal.num 1, CellVal.str "c", CellVal.num 5, CellVal.str "s",
       CellVal.num 1, CellVal.str ""⟩]
    [("ylim", CfgVal.vRatPair [some 0, some 1]), ("x_order", CfgVal.vNone),
     ("figsize", CfgVal.vRatPair [some 1, some 2])]
    []
  refine ⟨h.1.trans (by rfl), ?_⟩
  exact h.2.1 _ (by rw [h.1]; exact List.mem_singleton.mpr rfl)
